import Mathlib

/-!
Verification of the image compression and Cloudinary migration utilities.

The definitions below are a shallow embedding of the TypeScript source:
`compressImage` and `smartCompress` from the image compression module,
`isCloudinaryUrl` and `isFirebaseStorageUrl` from `src/lib/cloudinary.ts`,
and `migrateAllToCloudinary` from the migration utility.

Modelling conventions:
* byte sizes, pixel dimensions and quality factors are rationals;
* the browser canvas primitives (image loading and `canvas.toBlob`) are an
  explicit `Codec` parameter: `decode` returns `none` when `img.onerror`
  fires, `encodeSize` returns the blob byte size or `none` when `toBlob`
  yields `null`;
* promise rejection is modelled with `Except`;
* the while-loop of `smartCompress` additionally returns the list of
  quality factors it attempted, in order, as a ghost trace (dropped by
  `smartCompress` itself), so that attempt counts are observable;
* the Firestore snapshot and the per-product network migration outcome are
  explicit parameters of `migrateAllToCloudinary`.
-/

namespace Gem

/-- Executable substring test on character lists: the pattern occurs as a
contiguous run of the text. -/
def listContains (pat : List Char) : List Char → Bool
  | [] => pat.isEmpty
  | c :: rest => pat.isPrefixOf (c :: rest) || listContains pat rest

/-- Substring containment, modelling `String.prototype.includes`. -/
def includes (s pat : String) : Bool :=
  listContains pat.toList s.toList

/-- Check whether a URL is from Cloudinary, from `cloudinary.ts`:
`url.includes` of the string cloudinary.com. -/
def isCloudinaryUrl (url : String) : Bool :=
  includes url ("cloudinary.com")

/-- Check whether a URL is from Firebase Storage, from `cloudinary.ts`:
`url.includes` of firebasestorage.googleapis.com, or of firebase. -/
def isFirebaseStorageUrl (url : String) : Bool :=
  includes url ("firebasestorage.googleapis.com") || includes url ("firebase")

/-- Output format of an encode (the `format` option). -/
inductive ImgFormat
  | jpeg
  | png
  | webp
deriving DecidableEq

/-- Decoded image: width and height in pixels. -/
structure Img where
  width : ℚ
  height : ℚ
deriving DecidableEq

/-- Input file, keeping the one field the compression logic reads:
its byte size (`file.size`). -/
structure FileData where
  size : ℚ
deriving DecidableEq

/-- Compression options with the default values of `compressImage`. -/
structure CompressionOptions where
  maxWidth : ℚ := 1920
  maxHeight : ℚ := 1080
  quality : ℚ := 8/10
  format : ImgFormat := ImgFormat.jpeg
  maxSizeKB : ℚ := 500
deriving DecidableEq

/-- Result record returned by the compression routines. -/
structure CompressionResult where
  originalSize : ℚ
  compressedSize : ℚ
  compressionRatio : ℚ
  width : ℚ
  height : ℚ
deriving DecidableEq

/-- Failure modes of `compressImage`: image load failure (decode), and the
two `canvas.toBlob` calls returning `null`. -/
inductive CompressErr
  | decodeFailure
  | encodeFailure
  | furtherEncodeFailure
deriving DecidableEq

/-- Codec: the browser primitives, as an explicit parameter. -/
structure Codec where
  decode : FileData → Option Img
  encodeSize : Img → ℚ → ℚ → ImgFormat → ℚ → Option ℚ

/-- Dimension calculation of `compressImage`: when either dimension exceeds
its configured maximum, the branch for the larger dimension clamps that
dimension and rescales the other by the aspect ratio. -/
def computeDims (w h maxW maxH : ℚ) : ℚ × ℚ :=
  if w > maxW ∨ h > maxH then
    let aspectRatio := w / h
    if w > h then
      let w2 := min maxW w
      (w2, w2 / aspectRatio)
    else
      let h2 := min maxH h
      (h2 * aspectRatio, h2)
  else (w, h)

/-- compressImage from the source: decode the file, compute the canvas
dimensions, encode at the requested quality, and when the resulting blob is
still larger than `maxSizeKB`, perform one further encode at a
proportionally reduced quality (floored at 0.1). -/
def compressImage (c : Codec) (file : FileData) (opts : CompressionOptions) :
    Except CompressErr CompressionResult :=
  match c.decode file with
  | none => Except.error CompressErr.decodeFailure
  | some img =>
    let dims := computeDims img.width img.height opts.maxWidth opts.maxHeight
    match c.encodeSize img dims.1 dims.2 opts.format opts.quality with
    | none => Except.error CompressErr.encodeFailure
    | some blobSize =>
      let compressedSizeKB := blobSize / 1024
      if compressedSizeKB > opts.maxSizeKB then
        let newQuality := max (1/10) (opts.quality * (opts.maxSizeKB / compressedSizeKB))
        match c.encodeSize img dims.1 dims.2 opts.format newQuality with
        | none => Except.error CompressErr.furtherEncodeFailure
        | some finalSize =>
          Except.ok { originalSize := file.size
                      compressedSize := finalSize
                      compressionRatio := (1 - finalSize / file.size) * 100
                      width := dims.1
                      height := dims.2 }
      else
        Except.ok { originalSize := file.size
                    compressedSize := blobSize
                    compressionRatio := (1 - blobSize / file.size) * 100
                    width := dims.1
                    height := dims.2 }

/-- Quality reduction step of `smartCompress`:
quality becomes `Math.max(0.1, quality * 0.7)`. -/
def qualStep (q : ℚ) : ℚ := max (1/10) (q * (7/10))

/-- List of quality factors a run of the loop would use starting from `q`
with the given attempt budget, each obtained from the previous one by
`qualStep`. -/
def qualSeq (q : ℚ) : Nat → List ℚ
  | 0 => []
  | n + 1 => q :: qualSeq (qualStep q) n

/-- Options `smartCompress` passes to `compressImage` on each loop attempt. -/
def smartOpts (targetSizeKB q : ℚ) : CompressionOptions :=
  { maxWidth := 1920
    maxHeight := 1080
    quality := q
    format := ImgFormat.jpeg
    maxSizeKB := targetSizeKB }

/-- While-loop of `smartCompress`, by recursion on the remaining attempt
budget.  A within-tolerance attempt is returned at once; a too-large result
or a failed attempt reduces the quality by `qualStep` and continues.
Besides the result (`none` when the budget is exhausted) it returns the
ghost trace of quality factors attempted, in order. -/
def smartLoop (c : Codec) (file : FileData) (targetSizeKB : ℚ) :
    ℚ → Nat → Option CompressionResult × List ℚ
  | _, 0 => (none, [])
  | q, n + 1 =>
    match compressImage c file (smartOpts targetSizeKB q) with
    | Except.ok result =>
      if result.compressedSize / 1024 ≤ targetSizeKB * (11/10) then
        (some result, [q])
      else
        let rest := smartLoop c file targetSizeKB (qualStep q) n
        (rest.1, q :: rest.2)
    | Except.error _ =>
      let rest := smartLoop c file targetSizeKB (qualStep q) n
      (rest.1, q :: rest.2)

/-- Sentinel result the source builds when every attempt, the final
fallback included, has failed: the original file, unchanged. -/
def originalSentinel (file : FileData) : CompressionResult :=
  { originalSize := file.size
    compressedSize := file.size
    compressionRatio := 0
    width := 0
    height := 0 }

/-- smartCompress from the source: up to `maxAttempts = 5` loop attempts
starting at quality 0.9, then a fallback `compressImage` at quality 0.1
with all other options at their defaults, and finally the original file as
a sentinel result when the fallback fails too.  Every branch resolves, so
the returned value is always `Except.ok`. -/
def smartCompress (c : Codec) (file : FileData) (targetSizeKB : ℚ) :
    Except CompressErr CompressionResult :=
  match (smartLoop c file targetSizeKB (9/10) 5).1 with
  | some r => Except.ok r
  | none =>
    match compressImage c file { quality := 1/10 } with
    | Except.ok r => Except.ok r
    | Except.error _ => Except.ok (originalSentinel file)

/-- Boolean test that an `Except` value is a success. -/
def isOkE (x : Except CompressErr CompressionResult) : Bool :=
  match x with
  | Except.ok _ => true
  | Except.error _ => false

/-- Product record, keeping the fields the migration reads.  The optional
`old_firebase_url` field is absent (`none`) or present; a JavaScript
truthiness check also rejects the empty string. -/
structure Product where
  id : String
  name : String
  image_url : String
  old_firebase_url : Option String
deriving DecidableEq

/-- Truthiness-guarded Firebase check on the optional field, modelling
`p.old_firebase_url && isFirebaseStorageUrl(p.old_firebase_url)`. -/
def truthyFirebase : Option String → Bool
  | none => false
  | some u => (u != "") && isFirebaseStorageUrl u

/-- Filter predicate of `migrateAllToCloudinary`: the product carries a
Firebase Storage URL in either field and its `image_url` is not already a
Cloudinary URL. -/
def needsMigration (p : Product) : Bool :=
  (truthyFirebase p.old_firebase_url ||
    ((p.image_url != "") && isFirebaseStorageUrl p.image_url)) &&
  !(includes p.image_url ("cloudinary.com"))

/-- Summary record returned by `migrateAllToCloudinary`; `errors` keeps the
product name and the error message, in order of occurrence. -/
structure MigrationSummary where
  total : Nat
  migrated : Nat
  skipped : Nat
  failed : Nat
  errors : List (String × String)
deriving DecidableEq

/-- Per-item loop body of `migrateAllToCloudinary`: a successful migration
increments `migrated`; a failure is caught, increments `failed` and appends
one entry to `errors`, and the loop continues. -/
def migrateStep (uploader : Product → Except String String)
    (acc : MigrationSummary) (p : Product) : MigrationSummary :=
  match uploader p with
  | Except.ok _ => { acc with migrated := acc.migrated + 1 }
  | Except.error e =>
    { acc with failed := acc.failed + 1, errors := acc.errors ++ [(p.name, e)] }

/-- migrateAllToCloudinary over a fetched product snapshot, with the
per-product migration outcome supplied by `uploader` (the network and
Firestore work of `migrateProductToCloudinary`).  Faithful to the source,
the early return taken when no product needs migration leaves `skipped` at
0, while the normal path sets `skipped` to `total - toMigrate.length`. -/
def migrateAllToCloudinary (uploader : Product → Except String String)
    (products : List Product) : MigrationSummary :=
  let toMigrate := products.filter needsMigration
  let init : MigrationSummary :=
    { total := products.length, migrated := 0, skipped := 0, failed := 0, errors := [] }
  if toMigrate.length = 0 then init
  else
    let r := toMigrate.foldl (migrateStep uploader) init
    { r with skipped := products.length - toMigrate.length }

/-- Predicate picking the products whose migration fails. -/
def uploadFails (uploader : Product → Except String String) (p : Product) : Bool :=
  match uploader p with
  | Except.ok _ => false
  | Except.error _ => true

/-- Codec whose image load always fails, modelling corrupt or unreadable
input bytes. -/
def failCodec : Codec :=
  { decode := fun _ => none
    encodeSize := fun _ _ _ _ _ => none }

/-- Codec that decodes every file but whose encode primitive never
produces a blob. -/
def encFailCodec : Codec :=
  { decode := fun _ => some { width := 1000, height := 800 }
    encodeSize := fun _ _ _ _ _ => none }

/-- Codec decoding to a 1000 by 800 image and always encoding to 102400
bytes, that is 100 KB. -/
def goodCodec : Codec :=
  { decode := fun _ => some { width := 1000, height := 800 }
    encodeSize := fun _ _ _ _ _ => some 102400 }

/-- Codec decoding to a 4000 by 3000 image and always encoding to 1024
bytes. -/
def bigImgCodec : Codec :=
  { decode := fun _ => some { width := 4000, height := 3000 }
    encodeSize := fun _ _ _ _ _ => some 1024 }

/-- Codec decoding to a 1500 by 1000 image and always encoding to 409600
bytes, that is 400 KB. -/
def midCodec : Codec :=
  { decode := fun _ => some { width := 1500, height := 1000 }
    encodeSize := fun _ _ _ _ _ => some 409600 }

/-- Sample product with a Firebase Storage image URL. -/
def sampleP1 : Product :=
  { id := "1"
    name := "p1"
    image_url := "https://firebasestorage.googleapis.com/v0/b/x/o/1.jpg"
    old_firebase_url := none }

/-- Second sample product with a Firebase Storage image URL. -/
def sampleP2 : Product :=
  { id := "2"
    name := "p2"
    image_url := "https://firebasestorage.googleapis.com/v0/b/x/o/2.jpg"
    old_firebase_url := none }

/-- Third sample product with a Firebase Storage image URL. -/
def sampleP3 : Product :=
  { id := "3"
    name := "p3"
    image_url := "https://firebasestorage.googleapis.com/v0/b/x/o/3.jpg"
    old_firebase_url := none }

/-- Product already carrying a Cloudinary URL, hence needing no migration. -/
def cloudProduct : Product :=
  { id := "4"
    name := "c4"
    image_url := "https://res.cloudinary.com/dsgi4fbqu/image/upload/v1/products/a.jpg"
    old_firebase_url := none }

/-- Migration outcome oracle failing exactly on the product named p2. -/
def failOnP2 : Product → Except String String := fun p =>
  if p.name = "p2" then Except.error ("boom")
  else Except.ok ("https://res.cloudinary.com/ok.jpg")

/-- Expected result of compressing the 4000 by 3000 image of
`bigImgCodec` in a file of 5242880 bytes. -/
def resultBig : CompressionResult :=
  { originalSize := 5242880
    compressedSize := 1024
    compressionRatio := (1 - 1024 / 5242880) * 100
    width := 1920
    height := 1440 }

/-- Expected result of compressing the 1000 by 800 image of `goodCodec`
in a file of 1024000 bytes. -/
def resultGood : CompressionResult :=
  { originalSize := 1024000
    compressedSize := 102400
    compressionRatio := (1 - 102400 / 1024000) * 100
    width := 1000
    height := 800 }

/-- Expected result of compressing the 1500 by 1000 image of `midCodec`
in a file of 819200 bytes. -/
def resultMid : CompressionResult :=
  { originalSize := 819200
    compressedSize := 409600
    compressionRatio := (1 - 409600 / 819200) * 100
    width := 1500
    height := 1000 }

/-- Correctness of the executable substring test: it decides contiguous
containment of character lists. -/
theorem listContains_iff (pat : List Char) (s : List Char) :
    listContains pat s = true ↔ pat <:+: s := by
  induction s with
  | nil => simp [listContains]
  | cons c rest ih => simp [listContains, ih, List.infix_cons_iff]

/-- Dimensions of a successful `compressImage` run are exactly
`computeDims` of the decoded image, whatever the quality and the size
target. -/
theorem compressImage_dims (c : Codec) (f : FileData) (opts : CompressionOptions)
    (img : Img) (r : CompressionResult)
    (hdec : c.decode f = some img)
    (hok : compressImage c f opts = Except.ok r) :
    r.width = (computeDims img.width img.height opts.maxWidth opts.maxHeight).1 ∧
    r.height = (computeDims img.width img.height opts.maxWidth opts.maxHeight).2 := by
  simp only [compressImage, hdec] at hok
  split at hok
  · simp at hok
  · split at hok
    · split at hok
      · simp at hok
      · cases hok
        exact ⟨rfl, rfl⟩
    · cases hok
      exact ⟨rfl, rfl⟩

/-- Resize no-op: when both dimensions are within the bounds, the
dimensions are untouched. -/
theorem computeDims_id (w h maxW maxH : ℚ) (hw : w ≤ maxW) (hh : h ≤ maxH) :
    computeDims w h maxW maxH = (w, h) := by
  unfold computeDims
  rw [if_neg]
  rw [not_or]
  exact ⟨not_lt.2 hw, not_lt.2 hh⟩

/-- Width bound of the resize for landscape inputs: when the width is the
larger dimension, the output width is within `maxW`. -/
theorem computeDims_fst_le (w h maxW maxH : ℚ) (hwh : h < w) :
    (computeDims w h maxW maxH).1 ≤ maxW := by
  unfold computeDims
  split_ifs with h1
  · exact min_le_left _ _
  · rw [not_or] at h1
    exact le_of_not_lt h1.1

/-- Height bound of the resize for portrait or square inputs: when the
width is not the larger dimension, the output height is within `maxH`. -/
theorem computeDims_snd_le (w h maxW maxH : ℚ) (hwh : ¬ h < w) :
    (computeDims w h maxW maxH).2 ≤ maxH := by
  unfold computeDims
  split_ifs with h1
  · exact min_le_left _ _
  · rw [not_or] at h1
    exact le_of_not_lt h1.2

/-- Aspect ratio preservation of the resize, stated multiplicatively. -/
theorem computeDims_aspect (w h maxW maxH : ℚ) (hw : w ≠ 0) (hh : h ≠ 0) :
    (computeDims w h maxW maxH).1 * h = (computeDims w h maxW maxH).2 * w := by
  unfold computeDims
  split_ifs with h1 h2
  · show min maxW w * h = min maxW w / (w / h) * w
    rw [div_div_eq_mul_div, div_mul_cancel₀ _ hw]
  · show min maxH h * (w / h) * h = min maxH h * w
    rw [mul_assoc, div_mul_cancel₀ _ hh]
  · show w * h = h * w
    ring

/-- Trace length of the re-encode loop is bounded by the attempt budget. -/
theorem smartLoop_trace_length_le (c : Codec) (f : FileData) (t : ℚ) :
    ∀ (n : Nat) (q : ℚ), (smartLoop c f t q n).2.length ≤ n := by
  intro n
  induction n with
  | zero => intro q; simp [smartLoop]
  | succ n ih =>
    intro q
    simp only [smartLoop]
    split
    · split
      · simp
      · simpa using Nat.succ_le_succ (ih (qualStep q))
    · simpa using Nat.succ_le_succ (ih (qualStep q))

/-- Early exit of the re-encode loop: a within-tolerance attempt is
returned at once, after exactly one attempt at the current quality. -/
theorem smartLoop_succ_ok (c : Codec) (f : FileData) (t q : ℚ) (n : Nat)
    (r : CompressionResult)
    (hok : compressImage c f (smartOpts t q) = Except.ok r)
    (htol : r.compressedSize / 1024 ≤ t * (11/10)) :
    smartLoop c f t q (n + 1) = (some r, [q]) := by
  rw [smartLoop, hok]
  simp [htol]

/-- Exhaustion of the re-encode loop: when every call to `compressImage`
fails, the loop consumes the whole budget, returns no result, and its
trace is exactly the `qualStep` iteration sequence. -/
theorem smartLoop_all_fail (c : Codec) (f : FileData) (t : ℚ)
    (h : ∀ opts, ∃ e, compressImage c f opts = Except.error e) :
    ∀ (n : Nat) (q : ℚ), smartLoop c f t q n = (none, qualSeq q n) := by
  intro n
  induction n with
  | zero => intro q; simp [smartLoop, qualSeq]
  | succ n ih =>
    intro q
    obtain ⟨e, he⟩ := h (smartOpts t q)
    rw [smartLoop, he]
    simp [qualSeq, ih (qualStep q)]

/-- Exhaustion at the top level: when every call to `compressImage` fails,
`smartCompress` resolves with the original file sentinel. -/
theorem smartCompress_all_fail (c : Codec) (f : FileData) (t : ℚ)
    (h : ∀ opts, ∃ e, compressImage c f opts = Except.error e) :
    smartCompress c f t = Except.ok (originalSentinel f) := by
  obtain ⟨e2, he2⟩ := h { quality := 1/10 }
  rw [smartCompress, smartLoop_all_fail c f t h 5 (9/10), he2]

/-- Length of the quality iteration sequence. -/
theorem qualSeq_length (q : ℚ) (n : Nat) : (qualSeq q n).length = n := by
  induction n generalizing q with
  | zero => simp [qualSeq]
  | succ n ih => simp [qualSeq, ih]

/-- Head membership in the quality iteration sequence. -/
theorem mem_qualSeq_self (q : ℚ) (n : Nat) : q ∈ qualSeq q (n + 1) := by
  rw [qualSeq]
  exact List.mem_cons_self _ _

/-- Invariance of the quality interval under the reduction step. -/
theorem qualStep_bounds (q : ℚ) (_h1 : 1/10 ≤ q) (h2 : q ≤ 9/10) :
    1/10 ≤ qualStep q ∧ qualStep q ≤ 9/10 := by
  unfold qualStep
  refine ⟨le_max_left _ _, max_le (by norm_num) (by linarith)⟩

/-- Every quality factor the loop attempts stays in the closed interval
between 0.1 and the starting value when the start is in that interval. -/
theorem smartLoop_trace_bounds (c : Codec) (f : FileData) (t : ℚ) :
    ∀ (n : Nat) (q : ℚ), 1/10 ≤ q → q ≤ 9/10 →
      ∀ x ∈ (smartLoop c f t q n).2, 1/10 ≤ x ∧ x ≤ 9/10 := by
  intro n
  induction n with
  | zero => intro q _ _ x hx; simp [smartLoop] at hx
  | succ n ih =>
    intro q hq1 hq2 x hx
    rw [smartLoop] at hx
    obtain ⟨hs1, hs2⟩ := qualStep_bounds q hq1 hq2
    cases hE : compressImage c f (smartOpts t q) with
    | ok r =>
      rw [hE] at hx
      simp only at hx
      split at hx
      · simp at hx
        exact hx ▸ ⟨hq1, hq2⟩
      · simp at hx
        rcases hx with rfl | hx
        · exact ⟨hq1, hq2⟩
        · exact ih (qualStep q) hs1 hs2 x hx
    | error e =>
      rw [hE] at hx
      simp at hx
      rcases hx with rfl | hx
      · exact ⟨hq1, hq2⟩
      · exact ih (qualStep q) hs1 hs2 x hx

/-- Counter bookkeeping of the per-item migration loop: each processed item
adds one to either `migrated` or `failed`, each failure appends exactly one
error entry, and `total` and `skipped` are untouched. -/
theorem foldl_migrateStep (uploader : Product → Except String String) :
    ∀ (l : List Product) (acc : MigrationSummary),
      (l.foldl (migrateStep uploader) acc).total = acc.total ∧
      (l.foldl (migrateStep uploader) acc).skipped = acc.skipped ∧
      (l.foldl (migrateStep uploader) acc).failed =
        acc.failed + l.countP (uploadFails uploader) ∧
      (l.foldl (migrateStep uploader) acc).migrated =
        acc.migrated + l.countP (fun p => !(uploadFails uploader p)) ∧
      (l.foldl (migrateStep uploader) acc).errors.length =
        acc.errors.length + l.countP (uploadFails uploader) := by
  intro l
  induction l with
  | nil => intro acc; simp
  | cons p rest ih =>
    intro acc
    obtain ⟨ht, hs, hf, hm, he⟩ := ih (migrateStep uploader acc p)
    cases hU : uploader p with
    | ok u =>
      have hPt : (migrateStep uploader acc p).total = acc.total := by
        simp [migrateStep, hU]
      have hPs : (migrateStep uploader acc p).skipped = acc.skipped := by
        simp [migrateStep, hU]
      have hPf : (migrateStep uploader acc p).failed = acc.failed := by
        simp [migrateStep, hU]
      have hPm : (migrateStep uploader acc p).migrated = acc.migrated + 1 := by
        simp [migrateStep, hU]
      have hPe : (migrateStep uploader acc p).errors = acc.errors := by
        simp [migrateStep, hU]
      have hcnt : uploadFails uploader p = false := by
        simp [uploadFails, hU]
      refine ⟨?_, ?_, ?_, ?_, ?_⟩ <;>
        simp only [List.foldl_cons, List.countP_cons, hcnt, ht, hs, hf, hm, he,
          hPt, hPs, hPf, hPm, hPe, Bool.false_eq_true, if_false,
          Bool.not_false, if_true] <;> omega
    | error e =>
      have hPt : (migrateStep uploader acc p).total = acc.total := by
        simp [migrateStep, hU]
      have hPs : (migrateStep uploader acc p).skipped = acc.skipped := by
        simp [migrateStep, hU]
      have hPf : (migrateStep uploader acc p).failed = acc.failed + 1 := by
        simp [migrateStep, hU]
      have hPm : (migrateStep uploader acc p).migrated = acc.migrated := by
        simp [migrateStep, hU]
      have hPe : (migrateStep uploader acc p).errors = acc.errors ++ [(p.name, e)] := by
        simp [migrateStep, hU]
      have hcnt : uploadFails uploader p = true := by
        simp [uploadFails, hU]
      refine ⟨?_, ?_, ?_, ?_, ?_⟩ <;>
        simp only [List.foldl_cons, List.countP_cons, hcnt, ht, hs, hf, hm, he,
          hPt, hPs, hPf, hPm, hPe, List.length_append, List.length_cons,
          List.length_nil, Bool.not_true, Bool.false_eq_true, if_false,
          if_true] <;> omega

/-- Partition of a list by the migration outcome: successes and failures
together account for every item. -/
theorem countP_split (uploader : Product → Except String String) :
    ∀ l : List Product,
      l.countP (fun p => !(uploadFails uploader p)) + l.countP (uploadFails uploader) =
        l.length := by
  intro l
  induction l with
  | nil => simp
  | cons p rest ih =>
    simp only [List.countP_cons, List.length_cons]
    cases hU : uploadFails uploader p <;> simp [hU] <;> omega

/-- C7: the URL classifiers are pure predicates decided by substring
matching against known hostnames: `isCloudinaryUrl url` is true exactly
when the string cloudinary.com occurs in `url`, and
`isFirebaseStorageUrl url` is true exactly when the string
firebasestorage.googleapis.com or the string firebase occurs in `url`. -/
theorem c7_url_classifiers (url : String) :
    (isCloudinaryUrl url = true ↔ ("cloudinary.com").toList <:+: url.toList) ∧
    (isFirebaseStorageUrl url = true ↔
      (("firebasestorage.googleapis.com").toList <:+: url.toList ∨
        ("firebase").toList <:+: url.toList)) := by
  refine ⟨?_, ?_⟩
  · rw [isCloudinaryUrl, includes]
    exact listContains_iff _ _
  · rw [isFirebaseStorageUrl, includes, includes, Bool.or_eq_true]
    rw [listContains_iff, listContains_iff]

/-- C4 (counterexample): the claim that the resize step always brings both
dimensions within the configured maxima fails on the source.  A 4000 by
3000 image against the 1920 by 1080 bounds resizes to 1920 by 1440: the
landscape branch clamps the width only, and the rescaled height 1440 still
exceeds 1080.  The end-to-end `compressImage` run confirms it. -/
theorem c4_counterexample :
    computeDims 4000 3000 1920 1080 = (1920, 1440) ∧
    ¬ ((1440:ℚ) ≤ 1080) ∧
    compressImage bigImgCodec { size := 5242880 } { } = Except.ok resultBig ∧
    ¬ (resultBig.height ≤ ({ } : CompressionOptions).maxHeight) := by
  refine ⟨?_, by norm_num, ?_, by norm_num [resultBig]⟩
  · norm_num [computeDims]
  · norm_num [compressImage, bigImgCodec, computeDims, resultBig]

/-- C4 (amended): the resize step of `compressImage` preserves the aspect
ratio and clamps only the dominant dimension: for a landscape image the
output width is within `maxWidth`, for a portrait or square image the
output height is within `maxHeight`; the other dimension is scaled by the
aspect ratio and may exceed its own configured maximum (4000 by 3000
resizes to 1920 by 1440).  The output dimensions do not depend on the
quality option, so they stay fixed across all subsequent encode
attempts. -/
theorem c4_amended (c : Codec) (f : FileData) (opts : CompressionOptions)
    (q2 w h : ℚ) (r r2 : CompressionResult)
    (hw : 0 < w) (hh : 0 < h)
    (hdec : c.decode f = some { width := w, height := h })
    (h1 : compressImage c f opts = Except.ok r)
    (h2 : compressImage c f { opts with quality := q2 } = Except.ok r2) :
    (h < w → r.width ≤ opts.maxWidth) ∧
    (¬ h < w → r.height ≤ opts.maxHeight) ∧
    r.width * h = r.height * w ∧
    (r2.width = r.width ∧ r2.height = r.height) := by
  obtain ⟨hrw, hrh⟩ :=
    compressImage_dims c f opts { width := w, height := h } r hdec h1
  obtain ⟨hrw2, hrh2⟩ :=
    compressImage_dims c f { opts with quality := q2 } { width := w, height := h } r2 hdec h2
  refine ⟨?_, ?_, ?_, ?_, ?_⟩
  · intro hwh
    rw [hrw]
    exact computeDims_fst_le w h _ _ hwh
  · intro hwh
    rw [hrh]
    exact computeDims_snd_le w h _ _ hwh
  · rw [hrw, hrh]
    exact computeDims_aspect w h _ _ (ne_of_gt hw) (ne_of_gt hh)
  · rw [hrw2, hrw]
  · rw [hrh2, hrh]

/-- C4 (witness): the amended statement at the concrete 4000 by 3000
image, the default options and a second attempt at quality 0.5. -/
theorem c4_witness :
    (0:ℚ) < 4000 ∧ (0:ℚ) < 3000 ∧
    bigImgCodec.decode { size := 5242880 } = some { width := 4000, height := 3000 } ∧
    compressImage bigImgCodec { size := 5242880 } { } = Except.ok resultBig ∧
    compressImage bigImgCodec { size := 5242880 } { quality := 1/2 } = Except.ok resultBig ∧
    (((3000:ℚ) < 4000 → resultBig.width ≤ ({ } : CompressionOptions).maxWidth) ∧
      (¬ (3000:ℚ) < 4000 → resultBig.height ≤ ({ } : CompressionOptions).maxHeight) ∧
      resultBig.width * 3000 = resultBig.height * 4000 ∧
      (resultBig.width = resultBig.width ∧ resultBig.height = resultBig.height)) := by
  have h1 : compressImage bigImgCodec { size := 5242880 } { } = Except.ok resultBig := by
    norm_num [compressImage, bigImgCodec, computeDims, resultBig]
  have h2 : compressImage bigImgCodec { size := 5242880 } { quality := 1/2 } =
      Except.ok resultBig := by
    norm_num [compressImage, bigImgCodec, computeDims, resultBig]
  have hc := c4_amended bigImgCodec { size := 5242880 } { } (1/2) 4000 3000
    resultBig resultBig (by norm_num) (by norm_num) rfl h1 h2
  exact ⟨by norm_num, by norm_num, rfl, h1, h2, hc⟩

/-- C5: for an image whose dimensions are within the bounds and whose
first encode at the initial default quality 0.9 already lands within the
ceiling, `smartCompress` performs exactly one attempt (the quality trace
is the one-element list 0.9), the output dimensions equal the input
dimensions, and the output is the first encode. -/
theorem c5_below_ceiling (c : Codec) (f : FileData) (t : ℚ) (img : Img) (s : ℚ)
    (ht : 0 ≤ t)
    (hdec : c.decode f = some img)
    (hw : img.width ≤ 1920) (hh : img.height ≤ 1080)
    (henc : c.encodeSize img img.width img.height ImgFormat.jpeg (9/10) = some s)
    (hsize : s / 1024 ≤ t) :
    smartCompress c f t =
      Except.ok { originalSize := f.size
                  compressedSize := s
                  compressionRatio := (1 - s / f.size) * 100
                  width := img.width
                  height := img.height } ∧
    (smartLoop c f t (9/10) 5).2 = [9/10] := by
  have hdims : computeDims img.width img.height 1920 1080 = (img.width, img.height) :=
    computeDims_id _ _ _ _ hw hh
  have hci : compressImage c f (smartOpts t (9/10)) =
      Except.ok { originalSize := f.size
                  compressedSize := s
                  compressionRatio := (1 - s / f.size) * 100
                  width := img.width
                  height := img.height } := by
    simp only [compressImage, smartOpts, hdec, hdims, henc]
    rw [if_neg (not_lt.2 hsize)]
  have hloop5 : smartLoop c f t (9/10) 5 =
      (some { originalSize := f.size
              compressedSize := s
              compressionRatio := (1 - s / f.size) * 100
              width := img.width
              height := img.height }, [(9:ℚ)/10]) :=
    smartLoop_succ_ok c f t (9/10) 4 _ hci (by show s / 1024 ≤ t * (11/10); linarith)
  refine ⟨?_, ?_⟩
  · rw [smartCompress, hloop5]
  · rw [hloop5]

/-- C5 (witness): the statement at the concrete 1500 by 1000 image in a
819200 byte file whose first encode yields 400 KB against a 500 KB
ceiling. -/
theorem c5_witness :
    (0:ℚ) ≤ 500 ∧
    midCodec.decode { size := 819200 } = some { width := 1500, height := 1000 } ∧
    (1500:ℚ) ≤ 1920 ∧ (1000:ℚ) ≤ 1080 ∧
    midCodec.encodeSize { width := 1500, height := 1000 } 1500 1000 ImgFormat.jpeg (9/10) =
      some 409600 ∧
    (409600:ℚ) / 1024 ≤ 500 ∧
    (smartCompress midCodec { size := 819200 } 500 = Except.ok resultMid ∧
      (smartLoop midCodec { size := 819200 } 500 (9/10) 5).2 = [9/10]) := by
  have hc := c5_below_ceiling midCodec { size := 819200 } 500
    { width := 1500, height := 1000 } 409600 (by norm_num) rfl (by norm_num)
    (by norm_num) rfl (by norm_num)
  exact ⟨by norm_num, rfl, by norm_num, by norm_num, rfl, by norm_num, hc⟩

/-- C3: for an input whose original size exceeds the ceiling, the
re-encode loop performs at most `maxAttempts = 5` attempts (the quality
trace has length at most 5), and it stops at the first attempt whose
output size is within the ceiling times 1.1, returning that result at
once. -/
theorem c3_attempt_budget (c : Codec) (f : FileData) (t q : ℚ) (n : Nat)
    (r : CompressionResult)
    (_hbig : f.size / 1024 > t) :
    (smartLoop c f t (9/10) 5).2.length ≤ 5 ∧
    (compressImage c f (smartOpts t q) = Except.ok r →
      r.compressedSize / 1024 ≤ t * (11/10) →
      smartLoop c f t q (n + 1) = (some r, [q])) :=
  ⟨smartLoop_trace_length_le c f t 5 (9/10),
    fun hok htol => smartLoop_succ_ok c f t q n r hok htol⟩

/-- C3 (witness): the statement at a 1000 KB file against a 100 KB
ceiling with a codec whose first attempt lands exactly on the ceiling. -/
theorem c3_witness :
    ((1024000:ℚ) / 1024 > 100) ∧
    (smartLoop goodCodec { size := 1024000 } 100 (9/10) 5).2.length ≤ 5 ∧
    smartLoop goodCodec { size := 1024000 } 100 (9/10) (0 + 1) =
      (some resultGood, [(9:ℚ)/10]) := by
  have hb : ((1024000:ℚ)) / 1024 > 100 := by norm_num
  have hc := c3_attempt_budget goodCodec { size := 1024000 } 100 (9/10) 0 resultGood hb
  refine ⟨hb, hc.1, hc.2 ?_ ?_⟩
  · norm_num [compressImage, goodCodec, smartOpts, computeDims, resultGood]
  · norm_num [resultGood]

/-- C9: every quality factor the re-encode loop of `smartCompress`
attempts, starting from the initial 0.9 and reduced by
`max(0.1, 0.7 * q)` on each step, stays in the closed interval from 0.1
to 0.9: it is never 0 or negative and never exceeds the initial value. -/
theorem c9_quality_bounds (c : Codec) (f : FileData) (t x : ℚ) (n : Nat)
    (hx : x ∈ (smartLoop c f t (9/10) n).2) :
    1/10 ≤ x ∧ x ≤ 9/10 :=
  smartLoop_trace_bounds c f t n (9/10) (by norm_num) (by norm_num) x hx

/-- C9 (witness): the starting quality 0.9 is in the trace of a concrete
run and satisfies the bounds. -/
theorem c9_witness :
    (9:ℚ)/10 ∈ (smartLoop failCodec { size := 1024000 } 500 (9/10) 5).2 ∧
    (1/10 ≤ (9:ℚ)/10 ∧ (9:ℚ)/10 ≤ 9/10) := by
  have hmem : (9:ℚ)/10 ∈ (smartLoop failCodec { size := 1024000 } 500 (9/10) 5).2 := by
    rw [smartLoop_all_fail failCodec { size := 1024000 } 500
      (fun opts => ⟨CompressErr.decodeFailure, rfl⟩) 5 (9/10)]
    exact mem_qualSeq_self (9/10) 4
  exact ⟨hmem, c9_quality_bounds failCodec { size := 1024000 } 500 (9/10) 5 hmem⟩

/-- C1 (counterexample): when no attempt produces an encoded output (the
encode primitive never yields a blob), `smartCompress` does not report an
`EncodingFailure`: it resolves successfully with the original file
sentinel, which is a different value from any error. -/
theorem c1_counterexample :
    smartCompress encFailCodec { size := 1536000 } 500 =
      Except.ok (originalSentinel { size := 1536000 }) ∧
    Except.ok (originalSentinel { size := 1536000 }) ≠
      (Except.error CompressErr.encodeFailure : Except CompressErr CompressionResult) := by
  refine ⟨?_, by simp⟩
  exact smartCompress_all_fail encFailCodec { size := 1536000 } 500
    (fun opts => ⟨CompressErr.encodeFailure, rfl⟩)

/-- C1 (amended): when the attempt budget is exhausted with every attempt
failing and the final quality 0.1 fallback fails too, `smartCompress`
does not report a typed failure: it resolves successfully with the
original file as a sentinel result, whose `compressedSize` equals
`originalSize`, whose `compressionRatio` is 0, and whose width and height
are 0; the caller distinguishes the unchanged original only through these
sentinel field values. -/
theorem c1_amended (c : Codec) (f : FileData) (t : ℚ)
    (h : ∀ opts, ∃ e, compressImage c f opts = Except.error e) :
    smartCompress c f t =
      Except.ok { originalSize := f.size
                  compressedSize := f.size
                  compressionRatio := 0
                  width := 0
                  height := 0 } :=
  smartCompress_all_fail c f t h

/-- C1 (witness): the amended statement at a codec whose encode primitive
always fails. -/
theorem c1_witness :
    (∀ opts, ∃ e, compressImage encFailCodec { size := 2048000 } opts = Except.error e) ∧
    smartCompress encFailCodec { size := 2048000 } 300 =
      Except.ok { originalSize := 2048000
                  compressedSize := 2048000
                  compressionRatio := 0
                  width := 0
                  height := 0 } := by
  have hall : ∀ opts, ∃ e, compressImage encFailCodec { size := 2048000 } opts =
      Except.error e :=
    fun opts => ⟨CompressErr.encodeFailure, rfl⟩
  exact ⟨hall, c1_amended encFailCodec { size := 2048000 } 300 hall⟩

/-- C2 (counterexample): for an input whose decode always fails, the
re-encoder `smartCompress` does not fail immediately with a
`DecodeFailure`: it resolves successfully, and its loop still consumes
all five attempts, re-running the decode on every one. -/
theorem c2_counterexample :
    failCodec.decode { size := 3072000 } = none ∧
    smartCompress failCodec { size := 3072000 } 500 ≠
      Except.error CompressErr.decodeFailure ∧
    (smartLoop failCodec { size := 3072000 } 500 (9/10) 5).2.length = 5 := by
  have hall : ∀ opts, ∃ e, compressImage failCodec { size := 3072000 } opts =
      Except.error e :=
    fun opts => ⟨CompressErr.decodeFailure, rfl⟩
  refine ⟨rfl, ?_, ?_⟩
  · rw [smartCompress_all_fail failCodec { size := 3072000 } 500 hall]
    simp
  · rw [smartLoop_all_fail failCodec { size := 3072000 } 500 hall 5 (9/10)]
    exact qualSeq_length (9/10) 5

/-- C2 (amended): each single `compressImage` call on an undecodable
input fails immediately with `DecodeFailure` and performs zero encode
attempts (the conclusion holds for every codec with failing decode,
whatever its encode primitive, which is therefore never consulted).
`smartCompress`, however, catches the failure and retries the whole
`compressImage` call, re-running the decode once per remaining attempt
with only the quality parameter changed (the trace is exactly the
`qualStep` iteration sequence), and finally resolves with the original
file sentinel instead of propagating the `DecodeFailure`. -/
theorem c2_amended (c : Codec) (f : FileData) (opts : CompressionOptions)
    (t q : ℚ) (n : Nat)
    (hdec : c.decode f = none) :
    compressImage c f opts = Except.error CompressErr.decodeFailure ∧
    smartLoop c f t q n = (none, qualSeq q n) ∧
    smartCompress c f t = Except.ok (originalSentinel f) := by
  have hci : ∀ opts2, compressImage c f opts2 = Except.error CompressErr.decodeFailure :=
    fun opts2 => by simp [compressImage, hdec]
  exact ⟨hci opts,
    smartLoop_all_fail c f t (fun o => ⟨CompressErr.decodeFailure, hci o⟩) n q,
    smartCompress_all_fail c f t (fun o => ⟨CompressErr.decodeFailure, hci o⟩)⟩

/-- C2 (witness): the amended statement at the always-failing decode
codec on a concrete file. -/
theorem c2_witness :
    failCodec.decode { size := 512000 } = none ∧
    (compressImage failCodec { size := 512000 } { } =
        Except.error CompressErr.decodeFailure ∧
      smartLoop failCodec { size := 512000 } 500 (9/10) 5 = (none, qualSeq (9/10) 5) ∧
      smartCompress failCodec { size := 512000 } 500 =
        Except.ok (originalSentinel { size := 512000 })) :=
  ⟨rfl, c2_amended failCodec { size := 512000 } { } 500 (9/10) 5 rfl⟩

/-- C8: `smartCompress` is total over its error branches: it always
resolves with a result, never rejects; and when the decode fails (so
every attempt including the final fallback fails), it returns the
original file with `compressedSize` equal to `originalSize`,
`compressionRatio` 0, and width and height both 0. -/
theorem c8_total_sentinel (c : Codec) (f : FileData) (t : ℚ) :
    isOkE (smartCompress c f t) = true ∧
    (c.decode f = none →
      smartCompress c f t =
        Except.ok { originalSize := f.size
                    compressedSize := f.size
                    compressionRatio := 0
                    width := 0
                    height := 0 }) := by
  constructor
  · unfold smartCompress
    rcases h5 : (smartLoop c f t (9/10) 5).1 with _ | r
    · cases h6 : compressImage c f { quality := 1/10 } with
      | ok r2 => simp [h5, h6, isOkE]
      | error e => simp [h5, h6, isOkE]
    · simp [h5, isOkE]
  · intro hdec
    exact smartCompress_all_fail c f t
      (fun opts => ⟨CompressErr.decodeFailure, by simp [compressImage, hdec]⟩)

/-- C8 (witness): the statement at the always-failing decode codec on a
concrete file, with the decode hypothesis discharged. -/
theorem c8_witness :
    isOkE (smartCompress failCodec { size := 4096000 } 500) = true ∧
    failCodec.decode { size := 4096000 } = none ∧
    smartCompress failCodec { size := 4096000 } 500 =
      Except.ok { originalSize := 4096000
                  compressedSize := 4096000
                  compressionRatio := 0
                  width := 0
                  height := 0 } := by
  have hc := c8_total_sentinel failCodec { size := 4096000 } 500
  exact ⟨hc.1, rfl, hc.2 rfl⟩

/-- C6: per-item failures in `migrateAllToCloudinary` are caught,
recorded, and never abort the batch: over any snapshot the failed count
is the number of failing items among those needing migration, the
migrated count is the number of succeeding ones (so later items are still
processed after a failure), the error list has one entry per failure, and
the total is the snapshot length.  On the concrete 3-item batch whose
second item fails, the summary is migrated 2, failed 1, with item 3
processed. -/
theorem c6_batch_partial_failure (uploader : Product → Except String String)
    (products : List Product) :
    (migrateAllToCloudinary uploader products).total = products.length ∧
    (migrateAllToCloudinary uploader products).failed =
      (products.filter needsMigration).countP (uploadFails uploader) ∧
    (migrateAllToCloudinary uploader products).migrated =
      (products.filter needsMigration).countP (fun p => !(uploadFails uploader p)) ∧
    (migrateAllToCloudinary uploader products).errors.length =
      (migrateAllToCloudinary uploader products).failed ∧
    migrateAllToCloudinary failOnP2 [sampleP1, sampleP2, sampleP3] =
      { total := 3, migrated := 2, skipped := 0, failed := 1,
        errors := [("p2", "boom")] } := by
  have hgen : (migrateAllToCloudinary uploader products).total = products.length ∧
      (migrateAllToCloudinary uploader products).failed =
        (products.filter needsMigration).countP (uploadFails uploader) ∧
      (migrateAllToCloudinary uploader products).migrated =
        (products.filter needsMigration).countP (fun p => !(uploadFails uploader p)) ∧
      (migrateAllToCloudinary uploader products).errors.length =
        (migrateAllToCloudinary uploader products).failed := by
    simp only [migrateAllToCloudinary]
    split_ifs with h0
    · have hnil : products.filter needsMigration = [] :=
        List.length_eq_zero.mp h0
      simp [hnil]
    · obtain ⟨ht, hs, hf, hm, he⟩ := foldl_migrateStep uploader
        (products.filter needsMigration)
        { total := products.length, migrated := 0, skipped := 0, failed := 0,
          errors := [] }
      refine ⟨?_, ?_, ?_, ?_⟩ <;> simp [ht, hs, hf, hm, he]
  exact ⟨hgen.1, hgen.2.1, hgen.2.2.1, hgen.2.2.2, by decide⟩

/-- C10 (counterexample): the counter invariant fails on the early-return
path.  A snapshot with one product already on Cloudinary returns total 1
but migrated, skipped and failed all 0, so migrated + skipped + failed is
not total. -/
theorem c10_counterexample :
    migrateAllToCloudinary failOnP2 [cloudProduct] =
      { total := 1, migrated := 0, skipped := 0, failed := 0, errors := [] } ∧
    (migrateAllToCloudinary failOnP2 [cloudProduct]).migrated +
        (migrateAllToCloudinary failOnP2 [cloudProduct]).skipped +
        (migrateAllToCloudinary failOnP2 [cloudProduct]).failed ≠
      (migrateAllToCloudinary failOnP2 [cloudProduct]).total := by
  exact ⟨by decide, by decide⟩

/-- C10 (amended): for every run in which at least one product needs
migration (the early return is not taken), the returned counters satisfy
migrated + skipped + failed = total, and the error list length equals the
failed count.  When no product needs migration the early return leaves
migrated, skipped and failed at 0 while total is the snapshot length. -/
theorem c10_amended (uploader : Product → Except String String)
    (products : List Product)
    (h0 : (products.filter needsMigration).length ≠ 0) :
    (migrateAllToCloudinary uploader products).migrated +
        (migrateAllToCloudinary uploader products).skipped +
        (migrateAllToCloudinary uploader products).failed =
      (migrateAllToCloudinary uploader products).total ∧
    (migrateAllToCloudinary uploader products).errors.length =
      (migrateAllToCloudinary uploader products).failed := by
  have hlen : (products.filter needsMigration).length ≤ products.length :=
    List.length_filter_le _ _
  have hsum := countP_split uploader (products.filter needsMigration)
  obtain ⟨ht, hs, hf, hm, he⟩ := foldl_migrateStep uploader
    (products.filter needsMigration)
    { total := products.length, migrated := 0, skipped := 0, failed := 0,
      errors := [] }
  have ht2 : (List.foldl (migrateStep uploader)
      { total := products.length, migrated := 0, skipped := 0, failed := 0,
        errors := [] } (products.filter needsMigration)).total = products.length := by
    rw [ht]
  have hf2 : (List.foldl (migrateStep uploader)
      { total := products.length, migrated := 0, skipped := 0, failed := 0,
        errors := [] } (products.filter needsMigration)).failed =
      (products.filter needsMigration).countP (uploadFails uploader) := by
    rw [hf]
    simp
  have hm2 : (List.foldl (migrateStep uploader)
      { total := products.length, migrated := 0, skipped := 0, failed := 0,
        errors := [] } (products.filter needsMigration)).migrated =
      (products.filter needsMigration).countP (fun p => !(uploadFails uploader p)) := by
    rw [hm]
    simp
  have he2 : (List.foldl (migrateStep uploader)
      { total := products.length, migrated := 0, skipped := 0, failed := 0,
        errors := [] } (products.filter needsMigration)).errors.length =
      (products.filter needsMigration).countP (uploadFails uploader) := by
    rw [he]
    simp
  simp only [migrateAllToCloudinary]
  rw [if_neg h0]
  refine ⟨?_, ?_⟩ <;> dsimp only <;> omega

/-- C10 (witness): the amended statement at the concrete 3-item batch
whose second item fails. -/
theorem c10_witness :
    ([sampleP1, sampleP2, sampleP3].filter needsMigration).length ≠ 0 ∧
    ((migrateAllToCloudinary failOnP2 [sampleP1, sampleP2, sampleP3]).migrated +
        (migrateAllToCloudinary failOnP2 [sampleP1, sampleP2, sampleP3]).skipped +
        (migrateAllToCloudinary failOnP2 [sampleP1, sampleP2, sampleP3]).failed =
      (migrateAllToCloudinary failOnP2 [sampleP1, sampleP2, sampleP3]).total ∧
      (migrateAllToCloudinary failOnP2 [sampleP1, sampleP2, sampleP3]).errors.length =
        (migrateAllToCloudinary failOnP2 [sampleP1, sampleP2, sampleP3]).failed) := by
  have h0 : ([sampleP1, sampleP2, sampleP3].filter needsMigration).length ≠ 0 := by
    decide
  exact ⟨h0, c10_amended failOnP2 [sampleP1, sampleP2, sampleP3] h0⟩

end Gem
